import Mathlib

/-!
Shallow embedding of the `template_sql` output plugin
(`plugins/outputs/template_sql/sql.go`) and proofs about its
template-to-parameterized-query compiler, its quoting utilities, its
datatype deriver and its per-record value map.

Modelling conventions:
* Go strings are modelled as `List Char` (sequences of runes).  Every
  operation of the modelled code (the regexp `:[a-zA-Z0-9_]*`, `strings.Map`,
  `strings.ReplaceAll`, rune comparisons) works rune by rune on valid UTF-8,
  and the pattern characters are all ASCII, so the rune-level model is exact.
* Go `map[string]T` is modelled by its lookup function `List Char → Option T`.
  Iterating a Go map and inserting every entry into another map is modelled
  by `insertAll`; this is order-independent because the keys of a single Go
  map are distinct.
* The dynamic values (`interface{}`) carried through the compiler are the
  closed set of kinds the plugin distinguishes; their payloads are opaque to
  the compiler, which only copies them.
-/

namespace TemplateSql

/-- Dynamic values flowing through the plugin (`interface{}` in the source):
the kinds distinguished by `deriveDatatype`, plus `timeVal` for `time.Time`
and `other` for any dynamic type outside the listed ones. -/
inductive GoValue where
  | int64 (v : Int)
  | uint64 (v : Nat)
  | float64 (bits : Nat)
  | str (s : List Char)
  | boolean (b : Bool)
  | timeVal (t : Int)
  | other
deriving DecidableEq

/-- Lookup function of a Go `map[string]interface\x7b\x7d`. -/
abbrev VMap := List Char → Option GoValue

/-- Characters matched by the identifier part of the placeholder regexp
`:[a-zA-Z0-9_]*` in `generateQuery`. -/
def isKeyChar (c : Char) : Bool :=
  ('a' ≤ c && c ≤ 'z') || ('A' ≤ c && c ≤ 'Z') || ('0' ≤ c && c ≤ '9') || c == '_'

/-- Keys of all placeholder occurrences of a template, in left-to-right scan
order, each stripped of its leading colon.  This models
`r.FindAllString(sql, -1)` for `r = :[a-zA-Z0-9_]*` followed by `match[1:]`:
every colon starts a match (the identifier may be empty) and the match
extends over the longest run of identifier characters; a colon is never an
identifier character, so matches never overlap. -/
def findAllKeys : List Char → List (List Char)
  | [] => []
  | c :: rest =>
    if c = ':' then rest.takeWhile isKeyChar :: findAllKeys (rest.dropWhile isKeyChar)
    else findAllKeys rest
termination_by s => s.length
decreasing_by
  all_goals first
    | exact Nat.lt_succ_of_le ((List.dropWhile_sublist _).length_le)
    | exact Nat.lt_succ_self _

/-- Value-collection loop of `generateQuery` (lines 153-160): look every
matched key up in the values map, in scan order, failing with the first
missing key. -/
def collectValues (valuesMap : VMap) : List (List Char) → Except (List Char) (List GoValue)
  | [] => Except.ok []
  | k :: ks =>
    match valuesMap k with
    | none => Except.error k
    | some v =>
      match collectValues valuesMap ks with
      | Except.error e => Except.error e
      | Except.ok vs => Except.ok (v :: vs)

/-- Replacement for the n-th placeholder (1-based) under the `pgx` driver:
the literal string `$n` (lines 163-168). -/
def pgxMarker (n : Nat) : List Char := '$' :: (Nat.repr n).data

/-- Replacement for every placeholder under any non-`pgx` driver: the literal
string `?` (line 171). -/
def questionMarker (_ : Nat) : List Char := ['?']

/-- Marker selection of `generateQuery`: `pgx` numbers its placeholders, every
other driver uses the unnumbered `?`. -/
def markerOf (driver : List Char) : Nat → List Char :=
  if driver = ("pgx").data then pgxMarker else questionMarker

/-- Placeholder rewriting (`r.ReplaceAllStringFunc` resp. `r.ReplaceAllString`):
replace the n-th match (counting from the given `n`) by `marker n`, leave all
other characters unchanged. -/
def rewriteTemplate (marker : Nat → List Char) : Nat → List Char → List Char
  | _, [] => []
  | n, c :: rest =>
    if c = ':' then marker n ++ rewriteTemplate marker (n + 1) (rest.dropWhile isKeyChar)
    else c :: rewriteTemplate marker n rest
termination_by _ s => s.length
decreasing_by
  all_goals first
    | exact Nat.lt_succ_of_le ((List.dropWhile_sublist _).length_le)
    | exact Nat.lt_succ_self _

/-- The template compiler `generateQuery` (lines 146-175), returning the Go
triple `(sql, values, err)`: on a missing key it returns the empty string, no
values and the error key; on success the rewritten template, the collected
values and no error. -/
def generateQuery (driver : List Char) (sql : List Char) (valuesMap : VMap) :
    List Char × List GoValue × Option (List Char) :=
  match collectValues valuesMap (findAllKeys sql) with
  | Except.error k => ([], [], some k)
  | Except.ok values => (rewriteTemplate (markerOf driver) 1 sql, values, none)

/-- Character whitelist of `sanitizeQuoted` (lines 104-117): runes between
`U+0001` and `U+FFFF` are kept, everything else becomes an underscore. -/
def sanitizeQuoted (input : List Char) : List Char :=
  input.map fun r => if 0x1 ≤ r.toNat ∧ r.toNat ≤ 0xFFFF then r else '_'

/-- Model of `strings.ReplaceAll(s, quote, quotequote)`: double every
double-quote character. -/
def escapeDoubleQuotes : List Char → List Char
  | [] => []
  | c :: rest =>
    if c = '"' then '"' :: '"' :: escapeDoubleQuotes rest
    else c :: escapeDoubleQuotes rest

/-- Identifier quoting `quoteIdent` (lines 95-97): sanitize, double embedded
double quotes, wrap in double quotes. -/
def quoteIdent (name : List Char) : List Char :=
  '"' :: (escapeDoubleQuotes (sanitizeQuoted name) ++ ['"'])

/-- Sanitizer as the specification describes it: replace exactly the
characters with code point below `U+0001`, keep all others. -/
def claimSanitize (input : List Char) : List Char :=
  input.map fun r => if r.toNat < 0x1 then '_' else r

/-- Identifier quoting as the specification describes it, built on
`claimSanitize`. -/
def claimQuoteIdent (name : List Char) : List Char :=
  '"' :: (escapeDoubleQuotes (claimSanitize name) ++ ['"'])

/-- Sanitizer with the range the code actually implements: characters below
`U+0001` or above `U+FFFF` become underscores. -/
def amendedSanitize (input : List Char) : List Char :=
  input.map fun r => if r.toNat < 0x1 ∨ 0xFFFF < r.toNat then '_' else r

/-- Inverse of the quote-doubling step: collapse each doubled double quote
back to a single one. -/
def collapseDoubledQuotes : List Char → List Char
  | [] => []
  | [c] => [c]
  | c :: d :: rest =>
    if c = '"' ∧ d = '"' then '"' :: collapseDoubledQuotes rest
    else c :: collapseDoubledQuotes (d :: rest)

/-- Unquoting transformation of the specification: strip the outer quotes,
collapse each doubled double quote. -/
def unquote (s : List Char) : List Char :=
  collapseDoubledQuotes ((s.drop 1).dropLast)

/-- Control characters in the sense of Unicode category Cc. -/
def isControlChar (c : Char) : Bool :=
  c.toNat < 0x20 || (0x7F ≤ c.toNat && c.toNat ≤ 0x9F)

/-- Printable characters: everything that is not a control character. -/
def isPrintableChar (c : Char) : Bool := !(isControlChar c)

/-- The conversion table `ConvertStruct` (lines 31-40). -/
structure ConvertStruct where
  Integer : List Char
  Real : List Char
  Text : List Char
  Timestamp : List Char
  Defaultvalue : List Char
  Unsigned : List Char
  Bool : List Char
  ConversionStyle : List Char
deriving DecidableEq

/-- Conversion table defaults from `newSQL` (lines 249-258). -/
def newSQLConvert : ConvertStruct where
  Integer := ("INT").data
  Real := ("DOUBLE").data
  Text := ("TEXT").data
  Timestamp := ("TIMESTAMP").data
  Defaultvalue := ("TEXT").data
  Unsigned := ("UNSIGNED").data
  Bool := ("BOOL").data
  ConversionStyle := ("unsigned_suffix").data

/-- The datatype deriver `deriveDatatype` (lines 119-144).  The second
component records whether an error-level log message was emitted; the first
is the returned type name.  In the `uint64` branch with an unrecognized
conversion style the `datatype` variable keeps its zero value, the empty
string. -/
def deriveDatatype (convert : ConvertStruct) (value : GoValue) : List Char × Bool :=
  match value with
  | GoValue.int64 _ => (convert.Integer, false)
  | GoValue.uint64 _ =>
    if convert.ConversionStyle = ("unsigned_suffix").data then
      (convert.Integer ++ ' ' :: convert.Unsigned, false)
    else if convert.ConversionStyle = ("literal").data then
      (convert.Unsigned, false)
    else ([], true)
  | GoValue.float64 _ => (convert.Real, false)
  | GoValue.str _ => (convert.Text, false)
  | GoValue.boolean _ => (convert.Bool, false)
  | _ => (convert.Defaultvalue, true)

/-- Insertion of every entry of `overlay` into `base`, as lookup functions:
models a Go loop `for k, v := range overlay` doing `base[k] = v`.  The keys
of a single Go map are distinct, so the iteration order is irrelevant and
the resulting lookup prefers `overlay`. -/
def insertAll (base overlay : VMap) : VMap :=
  fun k =>
    match overlay k with
    | some v => some v
    | none => base k

/-- The two built-in entries written first by `WriteMetric` (lines 182-183). -/
def builtinMap (name : List Char) (timestamp : Int) : VMap :=
  fun k =>
    if k = ("timestamp").data then some (GoValue.timeVal timestamp)
    else if k = ("metric").data then some (GoValue.str name)
    else none

/-- The per-record values map built by `WriteMetric` (lines 180-195):
built-ins, then configured defaults, then tags (as strings), then fields,
later insertions overwriting earlier ones. -/
def buildValuesMap (name : List Char) (timestamp : Int) (defaults : VMap)
    (tags : List Char → Option (List Char)) (fields : VMap) : VMap :=
  insertAll
    (insertAll
      (insertAll (builtinMap name timestamp) defaults)
      (fun k => (tags k).map GoValue.str))
    fields

/-- Decomposition of a template into its leading literal text and, for each
placeholder occurrence in scan order, the pair of its key and the literal
text following it (up to the next placeholder). -/
def splitTemplate : List Char → List Char × List (List Char × List Char)
  | [] => ([], [])
  | c :: rest =>
    if c = ':' then
      ([],
        (rest.takeWhile isKeyChar, (splitTemplate (rest.dropWhile isKeyChar)).1) ::
          (splitTemplate (rest.dropWhile isKeyChar)).2)
    else
      (c :: (splitTemplate rest).1, (splitTemplate rest).2)
termination_by s => s.length
decreasing_by
  all_goals first
    | exact Nat.lt_succ_of_le ((List.dropWhile_sublist _).length_le)
    | exact Nat.lt_succ_self _

/-- Rendering of the decomposed template with a marker in place of each
placeholder, numbering the occurrences from `n`, keeping every literal
segment unchanged. -/
def renderPieces (marker : Nat → List Char) : Nat → List (List Char × List Char) → List Char
  | _, [] => []
  | n, (_, lit) :: ps => marker n ++ lit ++ renderPieces marker (n + 1) ps

/-- Reassembly of the decomposed template: each piece contributes its colon,
its key and its trailing literal text. -/
def joinPieces : List (List Char × List Char) → List Char
  | [] => []
  | (key, lit) :: ps => ':' :: (key ++ lit ++ joinPieces ps)

/-! Helper lemmas about the scanner. -/

/-- Unfolding lemma: the empty template has no placeholder occurrences. -/
theorem findAllKeys_nil : findAllKeys [] = [] := by
  simp [findAllKeys]

/-- Unfolding lemma: a template starting with a colon contributes the key run
after the colon and continues past it. -/
theorem findAllKeys_colon (rest : List Char) :
    findAllKeys (':' :: rest) =
      rest.takeWhile isKeyChar :: findAllKeys (rest.dropWhile isKeyChar) := by
  simp [findAllKeys]

/-- Unfolding lemma: any non-colon character is skipped by the scan. -/
theorem findAllKeys_cons_ne (c : Char) (rest : List Char) (hc : c ≠ ':') :
    findAllKeys (c :: rest) = findAllKeys rest := by
  simp [findAllKeys, hc]

/-- Unfolding lemma for `rewriteTemplate` on the empty template. -/
theorem rewriteTemplate_nil (marker : Nat → List Char) (n : Nat) :
    rewriteTemplate marker n [] = [] := by
  simp [rewriteTemplate]

/-- Unfolding lemma for `rewriteTemplate` at a placeholder. -/
theorem rewriteTemplate_colon (marker : Nat → List Char) (n : Nat) (rest : List Char) :
    rewriteTemplate marker n (':' :: rest) =
      marker n ++ rewriteTemplate marker (n + 1) (rest.dropWhile isKeyChar) := by
  simp [rewriteTemplate]

/-- Unfolding lemma for `rewriteTemplate` at an ordinary character. -/
theorem rewriteTemplate_cons_ne (marker : Nat → List Char) (n : Nat) (c : Char)
    (rest : List Char) (hc : c ≠ ':') :
    rewriteTemplate marker n (c :: rest) = c :: rewriteTemplate marker n rest := by
  simp [rewriteTemplate, hc]

/-- Unfolding lemma for `splitTemplate` on the empty template. -/
theorem splitTemplate_nil : splitTemplate [] = ([], []) := by
  simp [splitTemplate]

/-- Unfolding lemma for `splitTemplate` at a placeholder. -/
theorem splitTemplate_colon (rest : List Char) :
    splitTemplate (':' :: rest) =
      ([],
        (rest.takeWhile isKeyChar, (splitTemplate (rest.dropWhile isKeyChar)).1) ::
          (splitTemplate (rest.dropWhile isKeyChar)).2) := by
  simp [splitTemplate]

/-- Unfolding lemma for `splitTemplate` at an ordinary character. -/
theorem splitTemplate_cons_ne (c : Char) (rest : List Char) (hc : c ≠ ':') :
    splitTemplate (c :: rest) =
      (c :: (splitTemplate rest).1, (splitTemplate rest).2) := by
  simp [splitTemplate, hc]

/-- Induction principle following the placeholder scan: a property holds of
every template if it holds of the empty one, is preserved under consuming a
colon together with its key run, and is preserved under consuming any other
character. -/
theorem scan_induction (P : List Char → Prop) (h0 : P [])
    (hcolon : ∀ rest, P (rest.dropWhile isKeyChar) → P (':' :: rest))
    (hother : ∀ c rest, c ≠ ':' → P rest → P (c :: rest)) : ∀ s, P s := by
  have key : ∀ len s, s.length ≤ len → P s := by
    intro len
    induction len with
    | zero =>
      intro s hs
      rw [List.length_eq_zero.mp (Nat.le_zero.mp hs)]
      exact h0
    | succ n ih =>
      intro s hs
      match s with
      | [] => exact h0
      | c :: rest =>
        have hrest : rest.length ≤ n := by
          simp only [List.length_cons] at hs
          omega
        by_cases hc : c = ':'
        · subst hc
          exact hcolon rest (ih _ (le_trans ((List.dropWhile_sublist _).length_le) hrest))
        · exact hother c rest hc (ih rest hrest)
  exact fun s => key s.length s le_rfl

/-- Lemma: `takeWhile` over an appended list stops no later than a first
appended element that fails the predicate. -/
theorem takeWhile_append_stop (p : Char → Bool) (r s : List Char) (x : Char)
    (hx : p x = false) :
    (r ++ x :: s).takeWhile p = r.takeWhile p := by
  induction r with
  | nil => simp [List.takeWhile_cons, hx]
  | cons c r ih => by_cases hc : p c <;> simp [List.takeWhile_cons, hc, ih]

/-- Lemma: `dropWhile` over an appended list keeps everything from a first
appended element that fails the predicate. -/
theorem dropWhile_append_stop (p : Char → Bool) (r s : List Char) (x : Char)
    (hx : p x = false) :
    (r ++ x :: s).dropWhile p = r.dropWhile p ++ x :: s := by
  induction r with
  | nil => simp [List.dropWhile_cons, hx]
  | cons c r ih => by_cases hc : p c <;> simp [List.dropWhile_cons, hc, ih]

/-- Scan of a template around an inserted colon that is not followed by an
identifier character: the colon contributes an empty key between the keys of
the two sides. -/
theorem findAllKeys_append_colon (s1 s2 : List Char)
    (h : ∀ c, s2.head? = some c → isKeyChar c = false) :
    findAllKeys (s1 ++ ':' :: s2) = findAllKeys s1 ++ [] :: findAllKeys s2 := by
  have hbase : findAllKeys (':' :: s2) = [] :: findAllKeys s2 := by
    rw [findAllKeys_colon]
    cases s2 with
    | nil => simp
    | cons c t =>
      have hc : isKeyChar c = false := h c rfl
      simp [List.takeWhile_cons, List.dropWhile_cons, hc]
  induction s1 using scan_induction with
  | h0 => simpa [findAllKeys_nil] using hbase
  | hcolon rest ih =>
    have hcolonKey : isKeyChar ':' = false := by decide
    rw [List.cons_append, findAllKeys_colon,
      takeWhile_append_stop _ _ _ _ hcolonKey,
      dropWhile_append_stop _ _ _ _ hcolonKey, ih, findAllKeys_colon]
    simp
  | hother c rest hc ih =>
    rw [List.cons_append, findAllKeys_cons_ne _ _ hc, ih, findAllKeys_cons_ne _ _ hc]

/-! Helper lemmas about value collection. -/

/-- When every scanned key is present in the values map, collection succeeds
and returns exactly the looked-up values in scan order. -/
theorem collectValues_ok_of_all_some (m : VMap) (ks : List (List Char))
    (h : ∀ k ∈ ks, (m k).isSome) :
    ∃ vs, collectValues m ks = Except.ok vs ∧ vs.map some = ks.map m := by
  induction ks with
  | nil => exact ⟨[], rfl, rfl⟩
  | cons k ks ih =>
    obtain ⟨v, hv⟩ := Option.isSome_iff_exists.mp (h k (List.mem_cons_self k ks))
    obtain ⟨vs, hvs, hmap⟩ := ih fun x hx => h x (List.mem_cons_of_mem _ hx)
    refine ⟨v :: vs, ?_, ?_⟩
    · simp [collectValues, hv, hvs]
    · simp [hmap, hv]

/-- Collection fails with key `e` exactly when `e` is the first scanned key
missing from the values map. -/
theorem collectValues_error_iff (m : VMap) (ks : List (List Char)) (e : List Char) :
    collectValues m ks = Except.error e ↔
      ks.find? (fun k => (m k).isNone) = some e := by
  induction ks with
  | nil => simp [collectValues]
  | cons k ks ih =>
    cases hk : m k with
    | none => simp [collectValues, hk, List.find?_cons, Option.isNone]
    | some v =>
      have hfind : List.find? (fun k => (m k).isNone) (k :: ks) =
          List.find? (fun k => (m k).isNone) ks := by
        rw [List.find?_cons]
        simp [hk]
      rw [hfind, ← ih]
      simp only [collectValues, hk]
      cases hrec : collectValues m ks <;> simp

/-- Collection distributes over appending when the first part succeeds. -/
theorem collectValues_append (m : VMap) (ks1 ks2 : List (List Char)) (vs1 : List GoValue)
    (h1 : collectValues m ks1 = Except.ok vs1) :
    collectValues m (ks1 ++ ks2) =
      (collectValues m ks2).map fun vs2 => vs1 ++ vs2 := by
  induction ks1 generalizing vs1 with
  | nil =>
    simp only [collectValues] at h1
    cases h1
    cases h2 : collectValues m ks2 <;> simp [Except.map, h2]
  | cons k ks ih =>
    cases hk : m k with
    | none => simp [collectValues, hk] at h1
    | some v =>
      cases hrec : collectValues m ks with
      | error e2 => simp [collectValues, hk, hrec] at h1
      | ok vs =>
        simp only [collectValues, hk, hrec] at h1
        cases h1
        rw [List.cons_append]
        simp only [collectValues, hk, ih vs hrec]
        cases h2 : collectValues m ks2 <;> simp [Except.map]

/-! Helper lemmas about rewriting. -/

/-- The placeholder rewriting of the source equals the specification-side
rendering of the decomposed template: leading literal text, then each
occurrence's marker (numbered consecutively) followed by its literal text. -/
theorem rewriteTemplate_eq_renderPieces (s : List Char) :
    ∀ (marker : Nat → List Char) (n : Nat),
      rewriteTemplate marker n s =
        (splitTemplate s).1 ++ renderPieces marker n (splitTemplate s).2 := by
  induction s using scan_induction with
  | h0 => intro marker n; simp [rewriteTemplate_nil, splitTemplate_nil, renderPieces]
  | hcolon rest ih =>
    intro marker n
    rw [rewriteTemplate_colon, splitTemplate_colon, ih]
    simp [renderPieces]
  | hother c rest hc ih =>
    intro marker n
    rw [rewriteTemplate_cons_ne _ _ _ _ hc, splitTemplate_cons_ne _ _ hc, ih]
    simp

/-- The decomposition of a template reassembles to the template itself: the
non-placeholder text is exactly the literal segments of the decomposition. -/
theorem splitTemplate_reassemble (s : List Char) :
    s = (splitTemplate s).1 ++ joinPieces (splitTemplate s).2 := by
  induction s using scan_induction with
  | h0 => simp [splitTemplate_nil, joinPieces]
  | hcolon rest ih =>
    rw [splitTemplate_colon]
    simp only [List.nil_append, joinPieces]
    rw [List.append_assoc, ← ih, List.takeWhile_append_dropWhile]
  | hother c rest hc ih =>
    rw [splitTemplate_cons_ne _ _ hc, List.cons_append, ← ih]

/-! Helper lemmas about quoting. -/

/-- Collapsing skips any character that is not a double quote. -/
theorem collapseDoubledQuotes_cons_ne (c : Char) (l : List Char) (hc : c ≠ '"') :
    collapseDoubledQuotes (c :: l) = c :: collapseDoubledQuotes l := by
  cases l with
  | nil => rfl
  | cons d rest => simp [collapseDoubledQuotes, hc]

/-- Collapsing doubled quotes undoes doubling them. -/
theorem collapseDoubledQuotes_escape (s : List Char) :
    collapseDoubledQuotes (escapeDoubleQuotes s) = s := by
  induction s with
  | nil => rfl
  | cons c rest ih =>
    by_cases hc : c = '"'
    · subst hc
      simp [escapeDoubleQuotes, collapseDoubledQuotes, ih]
    · rw [show escapeDoubleQuotes (c :: rest) = c :: escapeDoubleQuotes rest by
        simp [escapeDoubleQuotes, hc]]
      rw [collapseDoubledQuotes_cons_ne _ _ hc, ih]

/-- Sanitizing keeps a string unchanged when all its characters lie in the
whitelisted range. -/
theorem sanitizeQuoted_eq_self (s : List Char)
    (h : ∀ c ∈ s, 0x1 ≤ c.toNat ∧ c.toNat ≤ 0xFFFF) :
    sanitizeQuoted s = s := by
  unfold sanitizeQuoted
  have : s.map (fun r => if 0x1 ≤ r.toNat ∧ r.toNat ≤ 0xFFFF then r else '_') = s.map id :=
    List.map_congr_left fun r hr => by rw [if_pos (h r hr)]; rfl
  simpa using this

/-- Helper: when collection succeeds, no scanned key is missing. -/
theorem collectValues_ok_find?_none (m : VMap) (ks : List (List Char)) (vs : List GoValue)
    (h : collectValues m ks = Except.ok vs) :
    ks.find? (fun k => (m k).isNone) = none := by
  cases hf : ks.find? (fun k => (m k).isNone) with
  | none => rfl
  | some e =>
    exact absurd ((collectValues_error_iff m ks e).mpr hf) (by simp [h])

/-- Helper: the error component of `generateQuery` is exactly the first
scanned key missing from the values map. -/
theorem generateQuery_err_eq (driver sql : List Char) (m : VMap) :
    (generateQuery driver sql m).2.2 =
      (findAllKeys sql).find? (fun k => (m k).isNone) := by
  cases hcv : collectValues m (findAllKeys sql) with
  | error k =>
    have hfind := (collectValues_error_iff m (findAllKeys sql) k).mp hcv
    simp [generateQuery, hcv, hfind]
  | ok vs =>
    simp [generateQuery, hcv, collectValues_ok_find?_none _ _ _ hcv]

/-! Claim theorems. -/

/-- Claim C1: when the values map contains every key referenced by a
placeholder, `generateQuery` succeeds and returns an argument list with
exactly one entry per placeholder occurrence of the template, in
left-to-right scan order, entry i being the map's value for the key of the
i-th occurrence; duplicate identifiers thus contribute duplicate (equal)
values at their positions. -/
theorem generateQuery_args_match_placeholders (driver sql : List Char) (m : VMap)
    (h : ∀ k ∈ findAllKeys sql, (m k).isSome) :
    ∃ out args, generateQuery driver sql m = (out, args, none) ∧
      args.length = (findAllKeys sql).length ∧
      args.map some = (findAllKeys sql).map m := by
  obtain ⟨vs, hvs, hmap⟩ := collectValues_ok_of_all_some m (findAllKeys sql) h
  refine ⟨rewriteTemplate (markerOf driver) 1 sql, vs, ?_, ?_, hmap⟩
  · simp [generateQuery, hvs]
  · simpa using congrArg List.length hmap

/-- Witness for C1 at the repository's own test template. -/
theorem generateQuery_args_match_placeholders_witness :
    (∀ k ∈ findAllKeys ("UPDATE :metric SET name=:name").data,
      ((fun k => if k = ("metric").data then some (GoValue.str ("users").data)
        else if k = ("name").data then some (GoValue.str ("telegraf").data)
        else none) k).isSome) ∧
    ∃ out args,
      generateQuery ("pgx").data ("UPDATE :metric SET name=:name").data
        (fun k => if k = ("metric").data then some (GoValue.str ("users").data)
          else if k = ("name").data then some (GoValue.str ("telegraf").data)
          else none) = (out, args, none) ∧
      args.length = (findAllKeys ("UPDATE :metric SET name=:name").data).length ∧
      args.map some = (findAllKeys ("UPDATE :metric SET name=:name").data).map
        (fun k => if k = ("metric").data then some (GoValue.str ("users").data)
          else if k = ("name").data then some (GoValue.str ("telegraf").data)
          else none) := by
  constructor
  · simp [findAllKeys, List.takeWhile, List.dropWhile, isKeyChar]
  · exact generateQuery_args_match_placeholders _ _ _
      (by simp [findAllKeys, List.takeWhile, List.dropWhile, isKeyChar])

/-- Claim C2: on success the compiled SQL is the template's leading literal
text followed, for each placeholder occurrence in order, by its dialect
marker and its trailing literal text: under the `pgx` driver the n-th
occurrence (1-based) becomes exactly `$n`, under any other driver every
occurrence becomes `?`; the literal segments reassemble the original
template, so non-placeholder text is left unchanged. -/
theorem generateQuery_dialect_markers (driver sql : List Char) (m : VMap)
    (h : ∀ k ∈ findAllKeys sql, (m k).isSome) :
    ∃ args,
      generateQuery driver sql m =
        ((splitTemplate sql).1 ++
          renderPieces
            (fun n => if driver = ("pgx").data then '$' :: (Nat.repr n).data else ['?'])
            1 (splitTemplate sql).2,
          args, none) ∧
      sql = (splitTemplate sql).1 ++ joinPieces (splitTemplate sql).2 := by
  obtain ⟨vs, hvs, -⟩ := collectValues_ok_of_all_some m (findAllKeys sql) h
  have hmarker : markerOf driver =
      fun n => if driver = ("pgx").data then '$' :: (Nat.repr n).data else ['?'] := by
    funext n
    by_cases hd : driver = ("pgx").data <;> simp [markerOf, hd, pgxMarker, questionMarker]
  refine ⟨vs, ?_, splitTemplate_reassemble sql⟩
  simp only [generateQuery, hvs]
  rw [rewriteTemplate_eq_renderPieces, hmarker]

/-- Witness for C2 with one `pgx` placeholder. -/
theorem generateQuery_dialect_markers_witness :
    (∀ k ∈ findAllKeys ("SET a=:a").data,
      ((fun k => if k = ['a'] then some (GoValue.int64 1) else none) k).isSome) ∧
    ∃ args,
      generateQuery ("pgx").data ("SET a=:a").data
          (fun k => if k = ['a'] then some (GoValue.int64 1) else none) =
        ((splitTemplate ("SET a=:a").data).1 ++
          renderPieces
            (fun n => if ("pgx").data = ("pgx").data then '$' :: (Nat.repr n).data else ['?'])
            1 (splitTemplate ("SET a=:a").data).2,
          args, none) ∧
      ("SET a=:a").data =
        (splitTemplate ("SET a=:a").data).1 ++ joinPieces (splitTemplate ("SET a=:a").data).2 := by
  constructor
  · simp [findAllKeys, List.takeWhile, List.dropWhile, isKeyChar]
  · exact generateQuery_dialect_markers _ _ _
      (by simp [findAllKeys, List.takeWhile, List.dropWhile, isKeyChar])

/-- Claim C3: `generateQuery` fails exactly when some placeholder key is
missing from the values map (so unreferenced extra keys never cause failure);
the reported error is the first missing key in scan order; and on failure the
result is the empty string and no argument list. -/
theorem generateQuery_failure_characterization (driver sql : List Char) (m : VMap) :
    ((generateQuery driver sql m).2.2.isSome ↔ ∃ k ∈ findAllKeys sql, m k = none) ∧
    (∀ e, (generateQuery driver sql m).2.2 = some e ↔
      (findAllKeys sql).find? (fun k => (m k).isNone) = some e) ∧
    (∀ e, (generateQuery driver sql m).2.2 = some e →
      generateQuery driver sql m = ([], [], some e)) := by
  refine ⟨?_, ?_, ?_⟩
  · rw [generateQuery_err_eq]
    rw [List.find?_isSome]
    simp [Option.isNone_iff_eq_none]
  · intro e
    rw [generateQuery_err_eq]
  · intro e he
    cases hcv : collectValues m (findAllKeys sql) with
    | error k =>
      have hgen : generateQuery driver sql m = ([], [], some k) := by
        simp [generateQuery, hcv]
      rw [hgen] at he ⊢
      simp only [Option.some.injEq] at he
      rw [he]
    | ok vs =>
      have : (generateQuery driver sql m).2.2 = none := by
        simp [generateQuery, hcv]
      rw [this] at he
      cases he

/-- Witness for C3 at the repository's second test scenario (missing key). -/
theorem generateQuery_failure_characterization_witness :
    generateQuery ("pgx").data ("UPDATE :metric SET name=:name").data
      (fun k => if k = ("metric").data then some (GoValue.str ("users").data) else none) =
      ([], [], some ("name").data) := by
  refine (generateQuery_failure_characterization _ _ _).2.2 _ ?_
  simp [generateQuery, findAllKeys, collectValues, List.takeWhile, List.dropWhile, isKeyChar]

/-- Claim C4: the per-record values map resolves each key from the
highest-priority source defining it: a field value overrides a tag value,
which overrides a configured default value, which overrides the built-in
`metric` (record name) and `timestamp` (record time) entries. -/
theorem buildValuesMap_precedence (name : List Char) (timestamp : Int) (defaults : VMap)
    (tags : List Char → Option (List Char)) (fields : VMap) (k : List Char) :
    (∀ v, fields k = some v →
      buildValuesMap name timestamp defaults tags fields k = some v) ∧
    (fields k = none → ∀ s, tags k = some s →
      buildValuesMap name timestamp defaults tags fields k = some (GoValue.str s)) ∧
    (fields k = none → tags k = none → ∀ v, defaults k = some v →
      buildValuesMap name timestamp defaults tags fields k = some v) ∧
    (fields k = none → tags k = none → defaults k = none →
      buildValuesMap name timestamp defaults tags fields k = builtinMap name timestamp k) := by
  refine ⟨?_, ?_, ?_, ?_⟩ <;> intros <;> simp_all [buildValuesMap, insertAll]

/-- Witness for C4: a field value wins over a tag value sharing its key. -/
theorem buildValuesMap_precedence_witness :
    buildValuesMap ("cpu").data 7 (fun _ => none)
      (fun k => if k = ['f'] then some ['t'] else none)
      (fun k => if k = ['f'] then some (GoValue.int64 1) else none) ['f'] =
      some (GoValue.int64 1) :=
  (buildValuesMap_precedence ("cpu").data 7 (fun _ => none)
    (fun k => if k = ['f'] then some ['t'] else none)
    (fun k => if k = ['f'] then some (GoValue.int64 1) else none) ['f']).1
    (GoValue.int64 1) (by decide)

/-- Claim C5 fails on the code: `sanitizeQuoted` also replaces characters
above `U+FFFF` with an underscore, so a supplementary-plane character
refutes the claim that exactly the characters below `U+0001` are replaced. -/
theorem quoteIdent_claim_counterexample :
    quoteIdent [Char.ofNat 0x10000] ≠ claimQuoteIdent [Char.ofNat 0x10000] := by
  decide

/-- Claim C5 amended: `quoteIdent` equals the input transformed by replacing
exactly the characters whose code point is below `U+0001` or above `U+FFFF`
with an underscore, then doubling every embedded double quote, wrapped in
double quotes. -/
theorem quoteIdent_amended (name : List Char) :
    quoteIdent name = '"' :: (escapeDoubleQuotes (amendedSanitize name) ++ ['"']) := by
  have hsan : sanitizeQuoted name = amendedSanitize name := by
    unfold sanitizeQuoted amendedSanitize
    apply List.map_congr_left
    intro r _
    by_cases hr : 0x1 ≤ r.toNat ∧ r.toNat ≤ 0xFFFF
    · rw [if_pos hr, if_neg (by omega)]
    · rw [if_neg hr, if_pos (by omega)]
  rw [quoteIdent, hsan]

/-- Claim C6 fails on the code: with an unrecognized conversion style and an
unsigned-integer value, `deriveDatatype` logs but returns the empty string
(the `datatype` variable's zero value), not the configured default type
name. -/
theorem deriveDatatype_claim_counterexample :
    (deriveDatatype { newSQLConvert with ConversionStyle := ("bogus").data }
      (GoValue.uint64 5)).1 = [] ∧
    (deriveDatatype { newSQLConvert with ConversionStyle := ("bogus").data }
      (GoValue.uint64 5)).1 ≠
      ConvertStruct.Defaultvalue { newSQLConvert with ConversionStyle := ("bogus").data } := by
  decide

/-- Claim C6 amended: an unrecognized value kind makes `deriveDatatype` log a
warning and return the configured default type name; an unrecognized
conversion style (on an unsigned-integer value) makes it log a warning and
return the empty string; neither case fails the operation. -/
theorem deriveDatatype_fallback_amended (convert : ConvertStruct)
    (hstyle : convert.ConversionStyle ≠ ("unsigned_suffix").data ∧
      convert.ConversionStyle ≠ ("literal").data) :
    (∀ n, deriveDatatype convert (GoValue.uint64 n) = ([], true)) ∧
    (∀ t, deriveDatatype convert (GoValue.timeVal t) = (convert.Defaultvalue, true)) ∧
    deriveDatatype convert GoValue.other = (convert.Defaultvalue, true) := by
  refine ⟨fun n => ?_, fun t => rfl, rfl⟩
  simp [deriveDatatype, hstyle.1, hstyle.2]

/-- Witness for amended C6 at a concrete unrecognized style. -/
theorem deriveDatatype_fallback_amended_witness :
    deriveDatatype { newSQLConvert with ConversionStyle := ("bogus").data }
      (GoValue.uint64 7) = ([], true) :=
  (deriveDatatype_fallback_amended _ (by decide)).1 7

/-- Claim C7 fails on the code: a supplementary-plane character is printable
and not a control character, yet `quoteIdent` replaces it with an underscore,
so unquoting does not recover the input. -/
theorem unquote_quoteIdent_counterexample :
    (∀ c ∈ [Char.ofNat 0x1F600], isPrintableChar c = true ∧ isControlChar c = false) ∧
    unquote (quoteIdent [Char.ofNat 0x1F600]) ≠ [Char.ofNat 0x1F600] := by
  decide

/-- Claim C7 amended: unquoting recovers the input of `quoteIdent` exactly
for strings whose characters all lie in the sanitizer's kept range `U+0001`
to `U+FFFF`; embedded double quotes are doubled and collapse back
correctly. -/
theorem unquote_quoteIdent_amended (s : List Char)
    (h : ∀ c ∈ s, 0x1 ≤ c.toNat ∧ c.toNat ≤ 0xFFFF) :
    unquote (quoteIdent s) = s := by
  rw [unquote, quoteIdent, sanitizeQuoted_eq_self s h]
  simp only [List.drop_succ_cons, List.drop_zero]
  rw [List.dropLast_concat]
  exact collapseDoubledQuotes_escape s

/-- Witness for amended C7 on a string with an embedded double quote. -/
theorem unquote_quoteIdent_amended_witness :
    unquote (quoteIdent ("ab\"c").data) = ("ab\"c").data :=
  unquote_quoteIdent_amended _ (by decide)

/-- Claim C8: `generateQuery` is a deterministic pure function of its three
inputs: two invocations with equal driver, equal template and extensionally
equal values maps return equal (sql, args, error) triples.  Statelessness and
non-mutation of the inputs hold by construction of this embedding, which
models the function's only reads (driver, template, map lookups). -/
theorem generateQuery_deterministic (d1 d2 t1 t2 : List Char) (m1 m2 : VMap)
    (hd : d1 = d2) (ht : t1 = t2) (hm : ∀ k, m1 k = m2 k) :
    generateQuery d1 t1 m1 = generateQuery d2 t2 m2 := by
  subst hd
  subst ht
  rw [funext hm]

/-- Witness for C8 at concrete equal inputs. -/
theorem generateQuery_deterministic_witness :
    generateQuery ("pgx").data (":a").data (fun _ => some GoValue.other) =
      generateQuery ("pgx").data (":a").data (fun _k => some GoValue.other) :=
  generateQuery_deterministic _ _ _ _ _ _ rfl rfl (fun _ => rfl)

/-- Claim C9: a colon not followed by an identifier character is scanned as a
placeholder occurrence with the empty-string key: if the values map lacks the
empty key (and every earlier key is present) compilation fails naming the
empty key; if it maps the empty key, the occurrence contributes its value to
the argument list at its position, like any other placeholder. -/
theorem bareColon_empty_key (driver s1 s2 : List Char) (m : VMap)
    (h2 : ∀ c, s2.head? = some c → isKeyChar c = false)
    (h1 : ∀ k ∈ findAllKeys s1, (m k).isSome) :
    (m [] = none → generateQuery driver (s1 ++ ':' :: s2) m = ([], [], some [])) ∧
    (∀ v, m [] = some v → (∀ k ∈ findAllKeys s2, (m k).isSome) →
      ∃ out args1 args2,
        generateQuery driver (s1 ++ ':' :: s2) m = (out, args1 ++ v :: args2, none) ∧
        args1.map some = (findAllKeys s1).map m ∧
        args2.map some = (findAllKeys s2).map m) := by
  have hkeys := findAllKeys_append_colon s1 s2 h2
  obtain ⟨vs1, hvs1, hmap1⟩ := collectValues_ok_of_all_some m (findAllKeys s1) h1
  constructor
  · intro hnone
    have hcv : collectValues m (findAllKeys (s1 ++ ':' :: s2)) = Except.error [] := by
      rw [hkeys, collectValues_append m _ _ vs1 hvs1]
      simp [collectValues, hnone, Except.map]
    simp [generateQuery, hcv]
  · intro v hv hall2
    obtain ⟨vs2, hvs2, hmap2⟩ := collectValues_ok_of_all_some m (findAllKeys s2) hall2
    have hcv : collectValues m (findAllKeys (s1 ++ ':' :: s2)) =
        Except.ok (vs1 ++ v :: vs2) := by
      rw [hkeys, collectValues_append m _ _ vs1 hvs1]
      simp [collectValues, hv, hvs2, Except.map]
    exact ⟨rewriteTemplate (markerOf driver) 1 (s1 ++ ':' :: s2), vs1, vs2,
      by simp [generateQuery, hcv], hmap1, hmap2⟩

/-- Witness for C9: a bare trailing colon with no empty-string entry fails
naming the empty key. -/
theorem bareColon_empty_key_witness :
    generateQuery ("mysql").data (("DELETE ").data ++ ':' :: (" x").data)
      (fun _ => none) = ([], [], some []) := by
  refine (bareColon_empty_key ("mysql").data ("DELETE ").data (" x").data (fun _ => none)
    ?_ ?_).1 rfl
  · intro c hc
    rw [show ((" x").data.head? = some ' ') from rfl] at hc
    injection hc with h
    subst h
    decide
  · simp [findAllKeys, List.takeWhile, List.dropWhile, isKeyChar]

/-- Claim C10: `deriveDatatype` never consults the conversion table's
timestamp entry: its result is unchanged under any replacement of that entry,
and a timestamp-typed value takes the unknown-kind default branch, logging a
warning and returning the configured default type name. -/
theorem deriveDatatype_timestamp_unused (convert : ConvertStruct) (t : Int)
    (x : List Char) (v : GoValue) :
    deriveDatatype convert (GoValue.timeVal t) = (convert.Defaultvalue, true) ∧
    deriveDatatype { convert with Timestamp := x } v = deriveDatatype convert v := by
  constructor
  · rfl
  · cases v <;> rfl

end TemplateSql
